import Mathlib

/-!
Verification development for the unbrowserify unbundling engine
(src/unbrowserify.js and the decompress normalizer shipped with its tests).

The JavaScript source is shallowly embedded: the uglify syntax tree is
modelled as the inductive `Node` below with exactly the fields the engine
reads and writes, JavaScript objects used as string-keyed dictionaries are
modelled as association lists, and the unbounded `while` loops / recursive
tree walks of the source are modelled with an explicit fuel argument, with
`none` (or an explicit error) returned on fuel exhaustion so that a `some`
result is always the value the source computes.
-/

namespace Unbrowserify

/-- Association-list lookup, modelling JavaScript object property read
(`obj[key]`, yielding `none` for an absent property). -/
def alGet {α : Type} : List (String × α) → String → Option α
  | [], _ => none
  | (k, v) :: rest, key => if k = key then some v else alGet rest key

/-- Association-list update-or-append, modelling JavaScript object property
assignment (`obj[key] = v`: existing key updated in place, new key appended). -/
def alSet {α : Type} : List (String × α) → String → α → List (String × α)
  | [], key, v => [(key, v)]
  | (k, w) :: rest, key, v =>
      if k = key then (key, v) :: rest else (k, w) :: alSet rest key v

theorem alGet_alSet {α : Type} (l : List (String × α)) (k : String) (v : α) (key : String) :
    alGet (alSet l k v) key = if k = key then some v else alGet l key := by
  induction l with
  | nil =>
      simp [alSet, alGet]
  | cons hd tl ih =>
      obtain ⟨k', v'⟩ := hd
      simp only [alSet]
      by_cases h1 : k' = k
      · subst h1
        by_cases h2 : k' = key <;> simp [alGet, h2]
      · simp only [if_neg h1, alGet]
        by_cases h2 : k' = key
        · have hk : ¬ k = key := fun h => h1 (h2.trans h.symm)
          simp [h2, hk]
        · simp [h2, ih]

/-- Lookup that additionally treats the empty string as absent, modelling a
JavaScript truthiness test `if (!obj[key])` on a string-valued property. -/
def alGetTruthy (l : List (String × String)) (key : String) : Option String :=
  match alGet l key with
  | some s => if s = "" then none else some s
  | none => none

/-! Structural string helpers: several core `String` functions are defined by
position-based well-founded recursion and do not reduce inside the kernel,
so the character-list equivalents used by the embedding are defined here. -/

/-- Split a character list on a separator character (semantics of
`String.splitOn` with a one-character separator). -/
def splitCharAux (c : Char) : List Char → List Char → List (List Char)
  | acc, [] => [acc.reverse]
  | acc, x :: xs =>
      if x = c then acc.reverse :: splitCharAux c [] xs
      else splitCharAux c (x :: acc) xs

/-- Split a string on a separator character. -/
def strSplit (c : Char) (s : String) : List String :=
  (splitCharAux c [] s.data).map String.mk

/-- ASCII lower-casing of one character (the fragment of
`toLowerCase` relevant to module names). -/
def charLower (c : Char) : Char :=
  if c.toNat ≥ 65 && c.toNat ≤ 90 then Char.ofNat (c.toNat + 32) else c

/-- ASCII lower-casing of a string, modelling JavaScript `toLowerCase`. -/
def strToLower (s : String) : String := String.mk (s.data.map charLower)

/-- Test for a one-character prefix (semantics of `startsWith` with a
one-character argument). -/
def strStartsWithChar (c : Char) (s : String) : Bool :=
  match s.data with
  | x :: _ => x = c
  | [] => false

/-- List prefix test. -/
def isPre : List Char → List Char → Bool
  | [], _ => true
  | _ :: _, [] => false
  | a :: as, b :: bs => a = b && isPre as bs

/-- Suffix test on strings (semantics of `String.endsWith`). -/
def strEndsWith (s suf : String) : Bool :=
  isPre suf.data.reverse s.data.reverse

/-- Decimal digit value of a character. -/
def digitVal (c : Char) : Option Nat :=
  if c.toNat ≥ 48 && c.toNat ≤ 57 then some (c.toNat - 48) else none

/-- Parse a run of decimal digits. -/
def decAux : List Char → Nat → Option Nat
  | [], acc => some acc
  | c :: cs, acc =>
      match digitVal c with
      | some d => decAux cs (acc * 10 + d)
      | none => none

/-- Parse a non-empty all-digit string (semantics of `String.toNat?`). -/
def strToNat? (s : String) : Option Nat :=
  match s.data with
  | [] => none
  | l => decAux l 0

/-! Model of Node's posix `path` functions, restricted to the relative,
slash-separated names the engine manipulates (an external collaborator of
the engine; see the spec's external-interfaces section). -/

/-- Resolve `.` , `..` and empty segments of a relative posix path
(the accumulator holds already-resolved segments in reverse). -/
def normSegs : List String → List String → List String
  | acc, [] => acc.reverse
  | acc, s :: rest =>
      if s = "" || s = "." then normSegs acc rest
      else if s = ".." then
        match acc with
        | [] => normSegs [".."] rest
        | t :: acc' => if t = ".." then normSegs (".." :: t :: acc') rest
                       else normSegs acc' rest
      else normSegs (s :: acc) rest

/-- Model of posix path normalization for relative paths. -/
def pathNormalize (p : String) : String :=
  let segs := normSegs [] (strSplit '/' p)
  if segs.isEmpty then "." else String.intercalate "/" segs

/-- Model of Node's `path.join` on two parts. -/
def pathJoin2 (a b : String) : String :=
  if a = "" && b = "" then "."
  else if a = "" then pathNormalize b
  else if b = "" then pathNormalize a
  else pathNormalize (a ++ "/" ++ b)

/-- Model of Node's `path.join` on three parts. -/
def pathJoin3 (a b c : String) : String :=
  pathNormalize (a ++ "/" ++ b ++ "/" ++ c)

/-- Model of Node's `path.dirname` for relative paths. -/
def pathDirname (p : String) : String :=
  match (strSplit '/' p).dropLast with
  | [] => "."
  | parts => String.intercalate "/" parts

/-- Model of Node's `path.basename(p, ext)`: final path segment, with the
extension stripped when the segment ends in it without being equal to it. -/
def pathBasename (p ext : String) : String :=
  let base := (strSplit '/' p).getLastD p
  if strEndsWith base ext && base != ext then base.dropRight ext.length else base

/-! The uglify syntax tree, embedded with the node kinds and fields the
engine touches. `symbolRef` and function parameters carry the optional
`thedef.mangled_name` display-name override the code generator honours.
`AST_Assign` is a subclass of `AST_Binary` in uglify; it is a separate
constructor here, which is behaviour-preserving because assignment operators
(`=`, `+=`, …) are disjoint from the operators the normalizer matches on
binary nodes (`/`, `&&`, `||`). -/
inductive Node : Type
  | toplevel (body : List Node)
  | blockStatement (body : List Node)
  | simpleStatement (body : Node)
  | ifStmt (condition : Node) (body : Node) (alternative : Option Node)
  | returnStmt (value : Option Node)
  | varStmt (definitions : List (String × Option Node))
  | forStmt (init : Option Node) (condition : Option Node) (step : Option Node) (body : Node)
  | withStmt (expression : Node) (body : Node)
  | switchStmt (expression : Node) (body : List Node)
  | func (name : Option String) (argnames : List (String × Option String)) (body : List Node)
  | binary (op : String) (left : Node) (right : Node)
  | assign (op : String) (left : Node) (right : Node)
  | conditional (condition : Node) (consequent : Node) (alternative : Node)
  | seqExpr (car : Node) (cdr : Node)
  | unary (op : String) (expr : Node)
  | call (expression : Node) (args : List Node)
  | symbolRef (name : String) (mangledName : Option String)
  | dot (expression : Node) (property : String)
  | numberLit (value : Int)
  | stringLit (value : String)
  | nanLit
  | infinityLit
  | trueLit
  | falseLit
deriving Repr

open Node

/-- Kinds that instantiate uglify's `AST_Statement`
(function nodes included: `AST_Lambda` derives from `AST_Statement`). -/
def isStatement : Node → Bool
  | toplevel _ | blockStatement _ | simpleStatement _ | ifStmt _ _ _ | returnStmt _
  | varStmt _ | forStmt _ _ _ _ | withStmt _ _ | switchStmt _ _ | func _ _ _ => true
  | _ => false

/-- Kinds that instantiate uglify's `AST_Block`
(`AST_Toplevel`, `AST_BlockStatement`, `AST_Switch`, and lambdas via `AST_Scope`). -/
def isBlock : Node → Bool
  | toplevel _ | blockStatement _ | switchStmt _ _ | func _ _ _ => true
  | _ => false

/-- Kinds that instantiate uglify's `AST_StatementWithBody` among the kinds
modelled here (`AST_If`, `AST_For`, `AST_With`). -/
def isStatementWithBody : Node → Bool
  | ifStmt _ _ _ | forStmt _ _ _ _ | withStmt _ _ => true
  | _ => false

/-! Module Name Resolver (src/unbrowserify.js, extractModuleNames). -/

/-- One property of the bundle's module-map object literal: the module id
(`objectProperty.key`), the module wrapper function
(`objectProperty.value.elements[0]`) and the local require map
(`objectProperty.value.elements[1]`, flattened to its
(specifier key, target-id value) pairs). -/
structure ModEntry : Type where
  key : String
  fn : Node
  reqs : List (String × String)

/-- Name table: JavaScript object from module id to resolved name. -/
abbrev Names := List (String × String)

/-- Seeding of the name table: every id in the entry-id array is assigned the
sentinel name (src/unbrowserify.js lines 112-114). -/
def seedNames (main : List String) : Names :=
  main.foldl (fun ns v => alSet ns v "browser") []

/-- Candidate name for a require-map pair (src/unbrowserify.js lines 136-142):
a relative specifier is joined onto the requiring module's directory,
anything else is rooted under node_modules with an index segment. -/
def candidateName (moduleName propKey : String) : String :=
  if strStartsWithChar '.' propKey then pathJoin2 (pathDirname moduleName) propKey
  else pathJoin3 "node_modules" propKey "index"

/-- Body of the require-map forEach (src/unbrowserify.js lines 132-155) for a
single (specifier, target id) pair. State: the name table, the warning lines
written so far, and the requiring module's `moduleName` variable (which the
conflict branch reassigns via `moduleName += '/index'`). Returns the updated
(names, moduleName, warnings). -/
def processPair (names : Names) (warnings : List String)
    (moduleId moduleName propKey targetId : String) :
    Names × String × List String :=
  let name := candidateName moduleName propKey
  match alGet names targetId with
  | none => (alSet names targetId name, moduleName, warnings)
  | some existing =>
      if existing = "" then (alSet names targetId name, moduleName, warnings)
      else if strToLower existing ≠ strToLower name then
        if existing.length ≤ name.length then
          (names, moduleName,
            warnings ++ ["More than one name found for module " ++ targetId ++ ":",
                         "    " ++ existing,
                         "    " ++ name])
        else
          let mn := moduleName ++ "/index"
          (alSet names moduleId mn, mn, warnings)
      else (names, moduleName, warnings)

/-- Fold of `processPair` over a module's require-map pairs, threading the
name table, the mutable `moduleName` variable and the warnings. -/
def processReqs : List (String × String) → String → String → Names → List String →
    Names × String × List String
  | [], _, mn, ns, ws => (ns, mn, ws)
  | (pk, tid) :: rest, mid, mn, ns, ws =>
      let r := processPair ns ws mid mn pk tid
      processReqs rest mid r.2.1 r.1 r.2.2

/-- The resolver's worklist loop (src/unbrowserify.js lines 116-156):
shift an entry; if its id has no (truthy) name yet, push it back and
continue, otherwise process its require map. The source loop has no
progress detection, so it is modelled with fuel; `none` means the loop was
still running when the fuel ran out. -/
def enLoop : Nat → List ModEntry → Names → List String → Option (Names × List String)
  | _, [], ns, ws => some (ns, ws)
  | 0, _ :: _, _, _ => none
  | fuel + 1, e :: rest, ns, ws =>
      match alGetTruthy ns e.key with
      | none => enLoop fuel (rest ++ [e]) ns ws
      | some mn =>
          let r := processReqs e.reqs e.key mn ns ws
          enLoop fuel rest r.1 r.2.2

/-- Module Name Resolver (src/unbrowserify.js, extractModuleNames): seed the
name table from the entry-id array, then run the worklist loop. The second
component of the result collects the console.warn diagnostic lines. -/
def extractModuleNames (fuel : Nat) (moduleObject : List ModEntry) (main : List String) :
    Option (Names × List String) :=
  enLoop fuel moduleObject (seedNames main) []

/-! Module Assembler (src/unbrowserify.js: renameArguments, updateRequires,
isNotBuiltinModule, isNotPublishedDependency, extractModules). -/

/-- Model of the external is-builtin-module package: a static list of the
host runtime's builtin module names. -/
def builtinModules : List String :=
  ["assert", "buffer", "child_process", "cluster", "console", "constants",
   "crypto", "dgram", "dns", "domain", "events", "fs", "http", "https",
   "module", "net", "os", "path", "punycode", "querystring", "readline",
   "repl", "stream", "string_decoder", "timers", "tls", "tty", "url",
   "util", "v8", "vm", "zlib"]

/-- Model of the external is-builtin-module predicate. -/
def isBuiltinModule (s : String) : Bool := builtinModules.contains s

/-- JavaScript truthiness of `parts[i]` for an array of strings:
the index exists and the string is non-empty. -/
def truthyAt (parts : List String) (i : Nat) : Bool :=
  match parts.get? i with
  | some s => s != ""
  | none => false

/-- Filter predicate isNotBuiltinModule (src/unbrowserify.js lines 244-249).
`this[objectProperty.key].split('/')` throws a TypeError when the id has no
resolved name, modelled as an error result. -/
def isNotBuiltinModule (names : Names) (e : ModEntry) : Except String Bool :=
  match alGet names e.key with
  | none => .error "TypeError: cannot read property split of undefined"
  | some nm =>
      let parts := strSplit '/' nm
      .ok (!(parts.headD "" == "node_modules" && truthyAt parts 1
              && isBuiltinModule (parts.getD 1 "")))

/-- Filter predicate isNotPublishedDependency (src/unbrowserify.js lines
251-270). A name under node_modules whose (possibly scoped) package name is
all-lowercase is a published dependency and is filtered out. The push onto
the module-global `dependencies` set feeds only the package descriptor and
is not modelled. -/
def isNotPublishedDependency (names : Names) (e : ModEntry) : Except String Bool :=
  match alGet names e.key with
  | none => .error "TypeError: cannot read property split of undefined"
  | some nm =>
      let parts := strSplit '/' nm
      if parts.headD "" = "node_modules" then
        match parts.get? 1 with
        | none => .error "TypeError: cannot read property 0 of undefined"
        | some nm1 =>
            let nm2 := if strStartsWithChar '@' nm1 && truthyAt parts 2
                       then nm1 ++ "/" ++ parts.getD 2 ""
                       else nm1
            .ok (!(nm2 == strToLower nm2))
      else .ok true

/-- Array.prototype.filter with a predicate that can throw. -/
def exceptFilter {α : Type} (p : α → Except String Bool) : List α → Except String (List α)
  | [] => .ok []
  | x :: xs => do
      let b ← p x
      let rest ← exceptFilter p xs
      pure (if b then x :: rest else rest)

/-- Canonical wrapper-parameter names (src/unbrowserify.js lines 161-164). -/
def argNamesList : List String :=
  ["require", "module", "exports", "moduleSource", "loadedModules", "mainIds"]

/-- renameArguments (src/unbrowserify.js lines 160-174): a parameter whose
declared name differs from the canonical name at its position gets the
canonical name as its `thedef.mangled_name` display override. Past the list's
end `argNames[i]` is undefined, so the override is cleared. -/
def renameArguments (args : List (String × Option String)) : List (String × Option String) :=
  args.enum.map fun p =>
    match argNamesList.get? p.1 with
    | some c => if p.2.1 ≠ c then (p.2.1, some c) else p.2
    | none => (p.2.1, none)

/-- JavaScript stringification of a 2-element array [specifier, name] as it
occurs in `'./' + mapping[name] + '.js'` (elements joined with a comma,
undefined printing as the empty string). -/
def pairToStr : String × Option String → String
  | (a, some b) => a ++ "," ++ b
  | (a, none) => a ++ ","

/-- JavaScript array indexing `mapping[name]` with a string property name:
hits only when the string is the canonical decimal form of an index into
the array. -/
def arrGet (mapping : List (String × Option String)) (nm : String) :
    Option (String × Option String) :=
  match strToNat? nm with
  | some i => if toString i = nm then mapping.get? i else none
  | none => none

mutual

/-- Walk of updateRequires (src/unbrowserify.js lines 176-196) over one
node: a call whose callee is a symbol named `require` (directly or via its
mangled display name) with exactly one string argument gets that argument's
value replaced by `'./' + mapping[name] + '.js'` when `mapping[name]` is
truthy; the walker then keeps descending. The scope linking that shares
`thedef` between a parameter and its references is external to the engine;
the mangled display name is carried on the `symbolRef` node itself. -/
def updateRequiresNode (mapping : List (String × Option String)) :
    Nat → Node → Option Node
  | 0, _ => none
  | fuel + 1, n =>
      match n with
      | call (symbolRef nm mg) args =>
          match args with
          | [stringLit s] =>
              if nm == "require" || mg == some "require" then
                let base := pathBasename s ".js"
                match arrGet mapping base with
                | some pr =>
                    some (call (symbolRef nm mg) [stringLit ("./" ++ pairToStr pr ++ ".js")])
                | none => some (call (symbolRef nm mg) [stringLit s])
              else some (call (symbolRef nm mg) [stringLit s])
          | _ => do
              let args' ← updateRequiresList mapping fuel args
              pure (call (symbolRef nm mg) args')
      | call e args => do
          let e' ← updateRequiresNode mapping fuel e
          let args' ← updateRequiresList mapping fuel args
          pure (call e' args')
      | toplevel b => do pure (toplevel (← updateRequiresList mapping fuel b))
      | blockStatement b => do pure (blockStatement (← updateRequiresList mapping fuel b))
      | simpleStatement e => do pure (simpleStatement (← updateRequiresNode mapping fuel e))
      | ifStmt c b a => do
          pure (ifStmt (← updateRequiresNode mapping fuel c)
            (← updateRequiresNode mapping fuel b) (← updateRequiresOpt mapping fuel a))
      | returnStmt v => do pure (returnStmt (← updateRequiresOpt mapping fuel v))
      | varStmt defs => do pure (varStmt (← updateRequiresDefs mapping fuel defs))
      | forStmt i c s b => do
          pure (forStmt (← updateRequiresOpt mapping fuel i)
            (← updateRequiresOpt mapping fuel c) (← updateRequiresOpt mapping fuel s)
            (← updateRequiresNode mapping fuel b))
      | withStmt e b => do
          pure (withStmt (← updateRequiresNode mapping fuel e)
            (← updateRequiresNode mapping fuel b))
      | switchStmt e b => do
          pure (switchStmt (← updateRequiresNode mapping fuel e)
            (← updateRequiresList mapping fuel b))
      | func nm as b => do pure (func nm as (← updateRequiresList mapping fuel b))
      | binary op l r => do
          pure (binary op (← updateRequiresNode mapping fuel l)
            (← updateRequiresNode mapping fuel r))
      | assign op l r => do
          pure (assign op (← updateRequiresNode mapping fuel l)
            (← updateRequiresNode mapping fuel r))
      | conditional c x y => do
          pure (conditional (← updateRequiresNode mapping fuel c)
            (← updateRequiresNode mapping fuel x) (← updateRequiresNode mapping fuel y))
      | seqExpr a d => do
          pure (seqExpr (← updateRequiresNode mapping fuel a)
            (← updateRequiresNode mapping fuel d))
      | unary op e => do pure (unary op (← updateRequiresNode mapping fuel e))
      | dot e p => do pure (dot (← updateRequiresNode mapping fuel e) p)
      | symbolRef nm mg => some (symbolRef nm mg)
      | stringLit s => some (stringLit s)
      | numberLit v => some (numberLit v)
      | nanLit => some nanLit
      | infinityLit => some infinityLit
      | trueLit => some trueLit
      | falseLit => some falseLit
  termination_by structural fuel _n => fuel

/-- List version of the updateRequires walk. -/
def updateRequiresList (mapping : List (String × Option String)) :
    Nat → List Node → Option (List Node)
  | 0, _ => none
  | _ + 1, [] => some []
  | fuel + 1, x :: xs => do
      let y ← updateRequiresNode mapping fuel x
      let ys ← updateRequiresList mapping fuel xs
      pure (y :: ys)
  termination_by structural fuel _l => fuel

/-- Optional-field version of the updateRequires walk. -/
def updateRequiresOpt (mapping : List (String × Option String)) :
    Nat → Option Node → Option (Option Node)
  | 0, _ => none
  | _ + 1, none => some none
  | fuel + 1, some x => do pure (some (← updateRequiresNode mapping fuel x))
  termination_by structural fuel _o => fuel

/-- Var-definitions version of the updateRequires walk. -/
def updateRequiresDefs (mapping : List (String × Option String)) :
    Nat → List (String × Option Node) → Option (List (String × Option Node))
  | 0, _ => none
  | _ + 1, [] => some []
  | fuel + 1, (nm, v) :: rest => do
      let v' ← updateRequiresOpt mapping fuel v
      let rest' ← updateRequiresDefs mapping fuel rest
      pure ((nm, v') :: rest')
  termination_by structural fuel _l => fuel

end

/-- One record of the assembler's intermediate `moduleProperties` array:
resolved module name, wrapper function, and the require mapping as the
array of [basename(specifier), resolvedTargetName] pairs that
src/unbrowserify.js lines 285-292 builds (the resolved name may be
undefined when the target id never got a name). -/
structure ModProp : Type where
  moduleName : String
  fn : Node
  mapping : List (String × Option String)

/-- Access to `moduleFunction.argnames` and `moduleFunction.body`
(a TypeError in the source when the module-map value's first element is not
a function). -/
def bodyOf : Node → Except String (List (String × Option String) × List Node)
  | func _ args body => .ok (args, body)
  | _ => .error "TypeError: module map value is not a function"

/-- One iteration of the assembler's forEach (src/unbrowserify.js lines
300-312): fetch or create the module's accumulated tree, rename the wrapper
arguments, rewrite its require calls, and append the wrapper body's
statements. -/
def assembleStep (fuel : Nat) (mods : List (String × List Node)) (p : ModProp) :
    Except String (List (String × List Node)) := do
  let (args, body) ← bodyOf p.fn
  let _ := renameArguments args
  let body' ← match updateRequiresList p.mapping fuel body with
              | some b => .ok b
              | none => .error "fuel exhausted in updateRequires"
  let cur := (alGet mods p.moduleName).getD []
  .ok (alSet mods p.moduleName (cur ++ body'))

/-- Fold of `assembleStep` over the module records. -/
def assembleLoop (fuel : Nat) : List ModProp → List (String × List Node) →
    Except String (List (String × List Node))
  | [], mods => .ok mods
  | p :: rest, mods => do
      let mods' ← assembleStep fuel mods p
      assembleLoop fuel rest mods'

/-- Module Assembler (src/unbrowserify.js, extractModules): filter out
builtin and published-dependency modules, build the module records, and
fold them into the name-to-tree map, which is seeded with a dedicated empty
tree for the `browser` entry name (line 273). A looked-up name that is
undefined is coerced to the string "undefined" as JavaScript does for an
undefined object key. -/
def extractModules (fuel : Nat) (moduleObject : List ModEntry) (moduleNames : Names) :
    Except String (List (String × List Node)) := do
  let f1 ← exceptFilter (isNotBuiltinModule moduleNames) moduleObject
  let f2 ← exceptFilter (isNotPublishedDependency moduleNames) f1
  let props := f2.map fun e =>
    ModProp.mk ((alGet moduleNames e.key).getD "undefined") e.fn
      (e.reqs.map fun pr => (pathBasename pr.1 ".js", alGet moduleNames pr.2))
  assembleLoop fuel props [("browser", [])]

/-! Decompiler/Normalizer (decompress.js, shipped alongside src/test/test.js:
asStatement, replaceInBlock, removeSequences, transformBefore, decompress). -/

/-- Rule-enable flags of decompress.js (defaultOptions). -/
structure TOptions : Type where
  constants : Bool
  sequences : Bool
  conditionals : Bool

/-- Default options of decompress.js: every rule enabled. -/
def defaultOptions : TOptions := ⟨true, true, true⟩

/-- asStatement (decompress.js): a non-statement node is wrapped in a simple
statement; statements (function nodes included, since uglify lambdas derive
from AST_Statement) pass through unchanged. -/
def asStatement (n : Node) : Node :=
  if isStatement n then n else simpleStatement n

/-- Find the first var-declaration item whose initializer is a sequence, and
return the sequence's left operand together with the definitions list where
that initializer has been replaced by the sequence's right operand
(the AST_Var branch of removeSequences). -/
def splitSeqDefs : List (String × Option Node) → Option (Node × List (String × Option Node))
  | [] => none
  | (nm, some (seqExpr a d)) :: rest => some (a, (nm, some d) :: rest)
  | (nm, v) :: rest =>
      match splitSeqDefs rest with
      | some (a, rest') => some (a, (nm, v) :: rest')
      | none => none

/-- The replace callback of removeSequences (decompress.js lines 265-299):
checked in source order — a var declaration with a sequence initializer, an
expression statement assigning from a sequence, then the nodeTypes table
(return value, expression-statement body, if condition, for init, with
expression, switch discriminant). Returns the two replacement statements,
or `none` when the child is left alone. -/
def rsReplace (child : Node) : Option (List Node) :=
  match child with
  | varStmt defs =>
      match splitSeqDefs defs with
      | some (a, defs') => some [simpleStatement a, varStmt defs']
      | none => none
  | simpleStatement (assign op l (seqExpr a d)) =>
      some [simpleStatement a, simpleStatement (assign op l d)]
  | returnStmt (some (seqExpr a d)) => some [simpleStatement a, returnStmt (some d)]
  | simpleStatement (seqExpr a d) => some [simpleStatement a, simpleStatement d]
  | ifStmt (seqExpr a d) b alt => some [simpleStatement a, ifStmt d b alt]
  | forStmt (some (seqExpr a d)) c st b => some [simpleStatement a, forStmt (some d) c st b]
  | withStmt (seqExpr a d) b => some [simpleStatement a, withStmt d b]
  | switchStmt (seqExpr a d) b => some [simpleStatement a, switchStmt d b]
  | _ => none

/-- The replace callback of the void-return hoisting rule (decompress.js
lines 390-397): `return void e;` becomes `e; return;`. -/
def vrReplace : Node → Option (List Node)
  | returnStmt (some (unary "void" e)) => some [simpleStatement e, returnStmt none]
  | _ => none

/-- The splice loop of replaceInBlock (decompress.js lines 232-244): when the
callback fires, the current element is replaced by the returned nodes and
scanning resumes at the first of them; otherwise the index advances. The
accumulator holds the already-scanned prefix in reverse. -/
def ripLoop (rep : Node → Option (List Node)) : Nat → List Node → List Node → Option (List Node)
  | 0, _, _ => none
  | _ + 1, acc, [] => some acc.reverse
  | fuel + 1, acc, x :: rest =>
      match rep x with
      | some ns => ripLoop rep fuel acc (ns ++ rest)
      | none => ripLoop rep fuel (x :: acc) rest

/-- replaceInBlock on a single-node field (decompress.js lines 228-252): the
node is wrapped in a one-element list, the splice loop runs, and the result
is unwrapped — or wrapped in a block statement when the loop produced more
than one statement. -/
def ripSingle (rep : Node → Option (List Node)) (fuel : Nat) (b : Node) : Option Node :=
  (ripLoop rep fuel [] [b]).map fun l =>
    match l with
    | [x] => x
    | xs => blockStatement xs

/-- replaceInBlock on a nullable single-node field (the `alternative` field):
a null field returns immediately. -/
def ripField (rep : Node → Option (List Node)) (fuel : Nat) :
    Option Node → Option (Option Node)
  | none => some none
  | some b => (ripSingle rep fuel b).map some

/-- The sequences section of transformBefore (decompress.js lines 331-340):
blocks get removeSequences over their statement list; statements-with-body
get it over their body field, and an if additionally over its alternative. -/
def applySequences (fuel : Nat) (node : Node) : Option Node :=
  match node with
  | toplevel b => (ripLoop rsReplace fuel [] b).map toplevel
  | blockStatement b => (ripLoop rsReplace fuel [] b).map blockStatement
  | switchStmt e b => (ripLoop rsReplace fuel [] b).map (switchStmt e)
  | func nm as b => (ripLoop rsReplace fuel [] b).map (func nm as)
  | ifStmt c b alt => do
      let b' ← ripSingle rsReplace fuel b
      let alt' ← ripField rsReplace fuel alt
      pure (ifStmt c b' alt')
  | forStmt i c st b => do
      let b' ← ripSingle rsReplace fuel b
      pure (forStmt i c st b')
  | withStmt e b => do
      let b' ← ripSingle rsReplace fuel b
      pure (withStmt e b')
  | n => some n

/-- The void-return hoisting section of transformBefore (decompress.js lines
389-398), applied to the body of any block or statement-with-body. -/
def applyVoidHoist (fuel : Nat) (node : Node) : Option Node :=
  match node with
  | toplevel b => (ripLoop vrReplace fuel [] b).map toplevel
  | blockStatement b => (ripLoop vrReplace fuel [] b).map blockStatement
  | switchStmt e b => (ripLoop vrReplace fuel [] b).map (switchStmt e)
  | func nm as b => (ripLoop vrReplace fuel [] b).map (func nm as)
  | ifStmt c b alt => do
      let b' ← ripSingle vrReplace fuel b
      pure (ifStmt c b' alt)
  | forStmt i c st b => do
      let b' ← ripSingle vrReplace fuel b
      pure (forStmt i c st b')
  | withStmt e b => do
      let b' ← ripSingle vrReplace fuel b
      pure (withStmt e b')
  | n => some n

/-- The constants section of transformBefore (decompress.js lines 304-329):
0/0 to NaN, 1/0 to Infinity, !0 to true, !1 to false. -/
def constFold : Node → Option Node
  | binary "/" (numberLit 0) (numberLit 0) => some nanLit
  | binary "/" (numberLit 1) (numberLit 0) => some infinityLit
  | unary "!" (numberLit 0) => some trueLit
  | unary "!" (numberLit 1) => some falseLit
  | _ => none

mutual

/-- node.transform with the decompress TreeTransformer: run transformBefore;
when it returns a replacement the replacement is the result (the before
hook has already transformed it), otherwise descend into the (possibly
mutated) node's children. -/
def transformNode : Nat → TOptions → Node → Option Node
  | 0, _, _ => none
  | fuel + 1, o, n => do
      let r ← transformBefore fuel o n
      if r.1 then pure r.2 else transformDescend fuel o r.2
  termination_by structural fuel _o _n => fuel

/-- transformBefore (decompress.js lines 303-400). The result pairs a flag
(true when before returned a replacement node, so descent is skipped) with
the node, which the sequences and void-hoist sections may have mutated in
place. -/
def transformBefore : Nat → TOptions → Node → Option (Bool × Node)
  | 0, _, _ => none
  | fuel + 1, o, node =>
      match (if o.constants then constFold node else none) with
      | some n' => some (true, n')
      | none => do
          let m ← if o.sequences then applySequences fuel node else some node
          if o.conditionals then
            match m with
            | simpleStatement (binary "&&" l r) => do
                let t ← transformNode fuel o (ifStmt l (asStatement r) none)
                pure (true, t)
            | simpleStatement (binary "||" l r) => do
                let t ← transformNode fuel o (ifStmt (unary "!" l) (asStatement r) none)
                pure (true, t)
            | simpleStatement (conditional c x y) => do
                let t ← transformNode fuel o (ifStmt c (asStatement x) (some (asStatement y)))
                pure (true, t)
            | returnStmt (some (conditional c x y)) => do
                let t ← transformNode fuel o
                  (ifStmt c (returnStmt (some x)) (some (returnStmt (some y))))
                pure (true, t)
            | m' => do
                let m2 ← applyVoidHoist fuel m'
                pure (false, m2)
          else pure (false, m)
  termination_by structural fuel _o _n => fuel

/-- Generic descent of the TreeTransformer into every child field. -/
def transformDescend : Nat → TOptions → Node → Option Node
  | 0, _, _ => none
  | fuel + 1, o, n =>
      match n with
      | toplevel b => do pure (toplevel (← transformList fuel o b))
      | blockStatement b => do pure (blockStatement (← transformList fuel o b))
      | simpleStatement e => do pure (simpleStatement (← transformNode fuel o e))
      | ifStmt c b a => do
          pure (ifStmt (← transformNode fuel o c) (← transformNode fuel o b)
            (← transformOpt fuel o a))
      | returnStmt v => do pure (returnStmt (← transformOpt fuel o v))
      | varStmt defs => do pure (varStmt (← transformDefs fuel o defs))
      | forStmt i c st b => do
          pure (forStmt (← transformOpt fuel o i) (← transformOpt fuel o c)
            (← transformOpt fuel o st) (← transformNode fuel o b))
      | withStmt e b => do
          pure (withStmt (← transformNode fuel o e) (← transformNode fuel o b))
      | switchStmt e b => do
          pure (switchStmt (← transformNode fuel o e) (← transformList fuel o b))
      | func nm as b => do pure (func nm as (← transformList fuel o b))
      | binary op l r => do
          pure (binary op (← transformNode fuel o l) (← transformNode fuel o r))
      | assign op l r => do
          pure (assign op (← transformNode fuel o l) (← transformNode fuel o r))
      | conditional c x y => do
          pure (conditional (← transformNode fuel o c) (← transformNode fuel o x)
            (← transformNode fuel o y))
      | seqExpr a d => do
          pure (seqExpr (← transformNode fuel o a) (← transformNode fuel o d))
      | unary op e => do pure (unary op (← transformNode fuel o e))
      | call e args => do
          pure (call (← transformNode fuel o e) (← transformList fuel o args))
      | dot e p => do pure (dot (← transformNode fuel o e) p)
      | symbolRef nm mg => some (symbolRef nm mg)
      | stringLit v => some (stringLit v)
      | numberLit v => some (numberLit v)
      | nanLit => some nanLit
      | infinityLit => some infinityLit
      | trueLit => some trueLit
      | falseLit => some falseLit
  termination_by structural fuel _o _n => fuel

/-- Descent over a statement or argument list. -/
def transformList : Nat → TOptions → List Node → Option (List Node)
  | 0, _, _ => none
  | _ + 1, _, [] => some []
  | fuel + 1, o, x :: xs => do
      let y ← transformNode fuel o x
      let ys ← transformList fuel o xs
      pure (y :: ys)
  termination_by structural fuel _o _l => fuel

/-- Descent over an optional child. -/
def transformOpt : Nat → TOptions → Option Node → Option (Option Node)
  | 0, _, _ => none
  | _ + 1, _, none => some none
  | fuel + 1, o, some x => do pure (some (← transformNode fuel o x))
  termination_by structural fuel _o _x => fuel

/-- Descent over var-declaration items (uglify walks each AST_VarDef's
value). -/
def transformDefs : Nat → TOptions → List (String × Option Node) →
    Option (List (String × Option Node))
  | 0, _, _ => none
  | _ + 1, _, [] => some []
  | fuel + 1, o, (nm, v) :: rest => do
      let v' ← transformOpt fuel o v
      let rest' ← transformDefs fuel o rest
      pure ((nm, v') :: rest')
  termination_by structural fuel _o _l => fuel

end

/-- decompress (decompress.js lines 402-410) with the default options: a
single TreeTransformer pass from the root. -/
def decompress (fuel : Nat) (node : Node) : Option Node :=
  transformNode fuel defaultOptions node

/-! Kernel Matcher (src/unbrowserify.js, findMainFunction). -/

mutual

/-- The TreeWalker of findMainFunction (src/unbrowserify.js lines 91-107),
threading the `mainFunctionCall` variable: at any call node the assertion
fires if a call was already recorded, otherwise the call is recorded and the
walker does not descend into it (the visitor returns true); every other node
is descended. -/
def fmfGo : Nat → Node → Option Node → Except String (Option Node)
  | 0, _, _ => .error "fuel exhausted in findMainFunction"
  | fuel + 1, n, st =>
      match n with
      | call e args =>
          match st with
          | some _ => .error "More than one top-level function found."
          | none => .ok (some (call e args))
      | toplevel b => fmfList fuel b st
      | blockStatement b => fmfList fuel b st
      | simpleStatement e => fmfGo fuel e st
      | ifStmt c b a => do fmfOpt fuel a (← fmfGo fuel b (← fmfGo fuel c st))
      | returnStmt v => fmfOpt fuel v st
      | varStmt defs => fmfDefs fuel defs st
      | forStmt i c stp b => do
          fmfGo fuel b (← fmfOpt fuel stp (← fmfOpt fuel c (← fmfOpt fuel i st)))
      | withStmt e b => do fmfGo fuel b (← fmfGo fuel e st)
      | switchStmt e b => do fmfList fuel b (← fmfGo fuel e st)
      | func _ _ b => fmfList fuel b st
      | binary _ l r => do fmfGo fuel r (← fmfGo fuel l st)
      | assign _ l r => do fmfGo fuel r (← fmfGo fuel l st)
      | conditional c x y => do fmfGo fuel y (← fmfGo fuel x (← fmfGo fuel c st))
      | seqExpr a d => do fmfGo fuel d (← fmfGo fuel a st)
      | unary _ e => fmfGo fuel e st
      | dot e _ => fmfGo fuel e st
      | symbolRef _ _ => .ok st
      | stringLit _ => .ok st
      | numberLit _ => .ok st
      | nanLit => .ok st
      | infinityLit => .ok st
      | trueLit => .ok st
      | falseLit => .ok st
  termination_by structural fuel _n _st => fuel

/-- List version of the findMainFunction walk. -/
def fmfList : Nat → List Node → Option Node → Except String (Option Node)
  | 0, _, _ => .error "fuel exhausted in findMainFunction"
  | _ + 1, [], st => .ok st
  | fuel + 1, x :: xs, st => do fmfList fuel xs (← fmfGo fuel x st)
  termination_by structural fuel _l _st => fuel

/-- Optional-field version of the findMainFunction walk. -/
def fmfOpt : Nat → Option Node → Option Node → Except String (Option Node)
  | 0, _, _ => .error "fuel exhausted in findMainFunction"
  | _ + 1, none, st => .ok st
  | fuel + 1, some x, st => fmfGo fuel x st
  termination_by structural fuel _x _st => fuel

/-- Var-definitions version of the findMainFunction walk. -/
def fmfDefs : Nat → List (String × Option Node) → Option Node → Except String (Option Node)
  | 0, _, _ => .error "fuel exhausted in findMainFunction"
  | _ + 1, [], st => .ok st
  | fuel + 1, (_, v) :: rest, st => do fmfDefs fuel rest (← fmfOpt fuel v st)
  termination_by structural fuel _l _st => fuel

end

/-- Kernel Matcher (src/unbrowserify.js, findMainFunction): walk the program
tree; the result is the recorded call (`none` when no call node was ever
visited), or the assertion error when a second call is matched. -/
def findMainFunction (fuel : Nat) (ast : Node) : Except String (Option Node) :=
  fmfGo fuel ast none

/-! Model of the external printer (the print operation of the spec's
external-interfaces section), used to state byte-identity of printed
output. Parentheses and braces are emitted uniformly. -/

mutual

/-- Printed form of one node. -/
def printNode : Nat → Node → String
  | 0, _ => "<fuel>"
  | fuel + 1, n =>
      match n with
      | toplevel b => printList fuel b
      | blockStatement b => "\x7b " ++ printList fuel b ++ " \x7d"
      | simpleStatement e => printNode fuel e ++ ";"
      | ifStmt c b none => "if (" ++ printNode fuel c ++ ") \x7b " ++ printNode fuel b ++ " \x7d"
      | ifStmt c b (some a) =>
          "if (" ++ printNode fuel c ++ ") \x7b " ++ printNode fuel b ++ " \x7d else \x7b "
            ++ printNode fuel a ++ " \x7d"
      | returnStmt none => "return;"
      | returnStmt (some v) => "return " ++ printNode fuel v ++ ";"
      | varStmt defs => "var " ++ printDefs fuel defs ++ ";"
      | forStmt i c st b =>
          "for (" ++ printOptE fuel i ++ "; " ++ printOptE fuel c ++ "; "
            ++ printOptE fuel st ++ ") " ++ printNode fuel b
      | withStmt e b => "with (" ++ printNode fuel e ++ ") " ++ printNode fuel b
      | switchStmt e b => "switch (" ++ printNode fuel e ++ ") \x7b " ++ printList fuel b ++ " \x7d"
      | func nm as b =>
          "function " ++ nm.getD "" ++ "("
            ++ String.intercalate ", " (as.map fun p => p.2.getD p.1) ++ ") \x7b "
            ++ printList fuel b ++ " \x7d"
      | binary op l r => "(" ++ printNode fuel l ++ " " ++ op ++ " " ++ printNode fuel r ++ ")"
      | assign op l r => printNode fuel l ++ " " ++ op ++ " " ++ printNode fuel r
      | conditional c x y =>
          "(" ++ printNode fuel c ++ " ? " ++ printNode fuel x ++ " : "
            ++ printNode fuel y ++ ")"
      | seqExpr a d => "(" ++ printNode fuel a ++ ", " ++ printNode fuel d ++ ")"
      | unary op e => op ++ " " ++ printNode fuel e
      | call e args =>
          printNode fuel e ++ "(" ++ printArgs fuel args ++ ")"
      | symbolRef nm mg => mg.getD nm
      | dot e p => printNode fuel e ++ "." ++ p
      | numberLit v => toString v
      | stringLit v => "\x22" ++ v ++ "\x22"
      | nanLit => "NaN"
      | infinityLit => "Infinity"
      | trueLit => "true"
      | falseLit => "false"
  termination_by structural fuel _n => fuel

/-- Printed form of a statement list. -/
def printList : Nat → List Node → String
  | 0, _ => "<fuel>"
  | _ + 1, [] => ""
  | fuel + 1, [x] => printNode fuel x
  | fuel + 1, x :: xs => printNode fuel x ++ " " ++ printList fuel xs
  termination_by structural fuel _l => fuel

/-- Printed form of an argument list. -/
def printArgs : Nat → List Node → String
  | 0, _ => "<fuel>"
  | _ + 1, [] => ""
  | fuel + 1, [x] => printNode fuel x
  | fuel + 1, x :: xs => printNode fuel x ++ ", " ++ printArgs fuel xs
  termination_by structural fuel _l => fuel

/-- Printed form of an optional expression slot. -/
def printOptE : Nat → Option Node → String
  | 0, _ => "<fuel>"
  | _ + 1, none => ""
  | fuel + 1, some x => printNode fuel x
  termination_by structural fuel _x => fuel

/-- Printed form of var-declaration items. -/
def printDefs : Nat → List (String × Option Node) → String
  | 0, _ => "<fuel>"
  | _ + 1, [] => ""
  | _ + 1, [(nm, none)] => nm
  | fuel + 1, [(nm, some v)] => nm ++ " = " ++ printNode fuel v
  | fuel + 1, (nm, none) :: rest => nm ++ ", " ++ printDefs fuel rest
  | fuel + 1, (nm, some v) :: rest => nm ++ " = " ++ printNode fuel v ++ ", " ++ printDefs fuel rest
  termination_by structural fuel _l => fuel

end

/-! Concrete programs shared by the claim theorems. The fib bundle fixture
referenced by the tests (src/test/fib) is not part of src/; the two-module
bundle below is modelled from the spec: an entry module requiring ./fib,
and a fib module whose body is function fib(n){ return n<2?n:fib(n-1)+fib(n-2); }. -/

/-- Placeholder wrapper function for entries whose body is irrelevant. -/
def dummyFn : Node := func none [] []

/-- The fib function declaration of the spec's round-trip example. -/
def fibDefun : Node :=
  func (some "fib") [("n", none)]
    [returnStmt (some (conditional
      (binary "<" (symbolRef "n" none) (numberLit 2))
      (symbolRef "n" none)
      (binary "+"
        (call (symbolRef "fib" none) [binary "-" (symbolRef "n" none) (numberLit 1)])
        (call (symbolRef "fib" none) [binary "-" (symbolRef "n" none) (numberLit 2)]))))]

/-- Wrapper of the bundle's entry module: it requires ./fib. -/
def mainWrapper : Node :=
  func none [("require", none), ("module", none), ("exports", none)]
    [simpleStatement (call (symbolRef "require" none) [stringLit "./fib"])]

/-- Wrapper of the bundle's fib module. -/
def fibWrapper : Node :=
  func none [("require", none), ("module", none), ("exports", none)] [fibDefun]

/-- Module map of the modelled two-module fib bundle: entry id 1, fib id 2. -/
def fibMo : List ModEntry :=
  [⟨"1", mainWrapper, [("./fib", "2")]⟩, ⟨"2", fibWrapper, []⟩]

/-- The fib module map with its two keys presented in the opposite order. -/
def fibMoShuffled : List ModEntry :=
  [⟨"2", fibWrapper, []⟩, ⟨"1", mainWrapper, [("./fib", "2")]⟩]

/-- Name table the resolver computes for the fib bundle. -/
def fibNames : Names := [("1", "browser"), ("2", "fib")]

/-- Assembler output for the fib bundle. -/
def fibMods : List (String × List Node) :=
  [("browser", [simpleStatement (call (symbolRef "require" none) [stringLit "./fib"])]),
   ("fib", [fibDefun])]

/-- The standalone fib module source, as parsed. -/
def fibStandalone : Node := toplevel [fibDefun]

/-- The normalized fib module: an if/else with two return statements. -/
def fibNormalized : Node :=
  toplevel [func (some "fib") [("n", none)]
    [ifStmt (binary "<" (symbolRef "n" none) (numberLit 2))
      (returnStmt (some (symbolRef "n" none)))
      (some (returnStmt (some (binary "+"
        (call (symbolRef "fib" none) [binary "-" (symbolRef "n" none) (numberLit 1)])
        (call (symbolRef "fib" none) [binary "-" (symbolRef "n" none) (numberLit 2)])))))]]

mutual
/-- True when the tree contains no function-call node anywhere. -/
def noCallsNode : Node → Bool
  | toplevel b => noCallsList b
  | blockStatement b => noCallsList b
  | simpleStatement e => noCallsNode e
  | ifStmt c b a => noCallsNode c && noCallsNode b && noCallsOpt a
  | returnStmt v => noCallsOpt v
  | varStmt defs => noCallsDefs defs
  | forStmt i c st b => noCallsOpt i && noCallsOpt c && noCallsOpt st && noCallsNode b
  | withStmt e b => noCallsNode e && noCallsNode b
  | switchStmt e b => noCallsNode e && noCallsList b
  | func _ _ b => noCallsList b
  | binary _ l r => noCallsNode l && noCallsNode r
  | assign _ l r => noCallsNode l && noCallsNode r
  | conditional c x y => noCallsNode c && noCallsNode x && noCallsNode y
  | seqExpr a d => noCallsNode a && noCallsNode d
  | unary _ e => noCallsNode e
  | call _ _ => false
  | dot e _ => noCallsNode e
  | symbolRef _ _ => true
  | stringLit _ => true
  | numberLit _ => true
  | nanLit => true
  | infinityLit => true
  | trueLit => true
  | falseLit => true

/-- List version of the call-free test. -/
def noCallsList : List Node → Bool
  | [] => true
  | x :: xs => noCallsNode x && noCallsList xs

/-- Optional-field version of the call-free test. -/
def noCallsOpt : Option Node → Bool
  | none => true
  | some x => noCallsNode x

/-- Var-definitions version of the call-free test. -/
def noCallsDefs : List (String × Option Node) → Bool
  | [] => true
  | (_, v) :: rest => noCallsOpt v && noCallsDefs rest
end

mutual
/-- Node count of a tree, a fuel bound for the walkers. -/
def nsize : Node → Nat
  | toplevel b => 1 + nsizeList b
  | blockStatement b => 1 + nsizeList b
  | simpleStatement e => 1 + nsize e
  | ifStmt c b a => 1 + nsize c + nsize b + nsizeOpt a
  | returnStmt v => 1 + nsizeOpt v
  | varStmt defs => 1 + nsizeDefs defs
  | forStmt i c st b => 1 + nsizeOpt i + nsizeOpt c + nsizeOpt st + nsize b
  | withStmt e b => 1 + nsize e + nsize b
  | switchStmt e b => 1 + nsize e + nsizeList b
  | func _ _ b => 1 + nsizeList b
  | binary _ l r => 1 + nsize l + nsize r
  | assign _ l r => 1 + nsize l + nsize r
  | conditional c x y => 1 + nsize c + nsize x + nsize y
  | seqExpr a d => 1 + nsize a + nsize d
  | unary _ e => 1 + nsize e
  | call e args => 1 + nsize e + nsizeList args
  | dot e _ => 1 + nsize e
  | symbolRef _ _ => 1
  | stringLit _ => 1
  | numberLit _ => 1
  | nanLit => 1
  | infinityLit => 1
  | trueLit => 1
  | falseLit => 1

/-- List version of the node count. -/
def nsizeList : List Node → Nat
  | [] => 1
  | x :: xs => 1 + nsize x + nsizeList xs

/-- Optional-field version of the node count. -/
def nsizeOpt : Option Node → Nat
  | none => 1
  | some x => 1 + nsize x

/-- Var-definitions version of the node count. -/
def nsizeDefs : List (String × Option Node) → Nat
  | [] => 1
  | (_, v) :: rest => 1 + nsizeOpt v + nsizeDefs rest
end

/-- Dissection of a successful Except bind. -/
theorem except_bind_ok {α β : Type} (m : Except String α) (g : α → Except String β) (b : β)
    (h : (m >>= g) = .ok b) : ∃ a, m = .ok a ∧ g a = .ok b := by
  cases m with
  | error e => simp [Bind.bind, Except.bind] at h
  | ok a => exact ⟨a, rfl, by simpa [Bind.bind, Except.bind] using h⟩

/-- Soundness of the undefined result: whenever the findMainFunction walk
returns with no recorded call, the starting state was empty and the walked
subtree contains no call node at all. -/
theorem fmfGo_ok_none (fuel : Nat) :
    (∀ (t : Node) (st : Option Node), fmfGo fuel t st = .ok none →
        st = none ∧ noCallsNode t = true)
  ∧ (∀ (l : List Node) (st : Option Node), fmfList fuel l st = .ok none →
        st = none ∧ noCallsList l = true)
  ∧ (∀ (x : Option Node) (st : Option Node), fmfOpt fuel x st = .ok none →
        st = none ∧ noCallsOpt x = true)
  ∧ (∀ (d : List (String × Option Node)) (st : Option Node), fmfDefs fuel d st = .ok none →
        st = none ∧ noCallsDefs d = true) := by
  induction fuel with
  | zero =>
      refine ⟨?_, ?_, ?_, ?_⟩ <;> intro a st h <;> simp [fmfGo, fmfList, fmfOpt, fmfDefs] at h
  | succ f ih =>
      obtain ⟨ihN, ihL, ihO, ihD⟩ := ih
      refine ⟨?_, ?_, ?_, ?_⟩
      · intro t st h
        cases t with
        | call e args =>
            cases st with
            | some c => simp [fmfGo] at h
            | none => simp [fmfGo] at h
        | toplevel b =>
            have r := ihL b st (by simpa [fmfGo] using h)
            exact ⟨r.1, by simp [noCallsNode, r.2]⟩
        | blockStatement b =>
            have r := ihL b st (by simpa [fmfGo] using h)
            exact ⟨r.1, by simp [noCallsNode, r.2]⟩
        | simpleStatement e =>
            have r := ihN e st (by simpa [fmfGo] using h)
            exact ⟨r.1, by simp [noCallsNode, r.2]⟩
        | ifStmt c b a =>
            simp only [fmfGo] at h
            obtain ⟨s1, h1, h'⟩ := except_bind_ok _ _ _ h
            obtain ⟨s2, h2, h3⟩ := except_bind_ok _ _ _ h'
            obtain ⟨hs2, ha⟩ := ihO a s2 h3
            subst hs2
            obtain ⟨hs1, hb⟩ := ihN b s1 h2
            subst hs1
            obtain ⟨hst, hc⟩ := ihN c st h1
            exact ⟨hst, by simp [noCallsNode, ha, hb, hc]⟩
        | returnStmt v =>
            have r := ihO v st (by simpa [fmfGo] using h)
            exact ⟨r.1, by simp [noCallsNode, r.2]⟩
        | varStmt defs =>
            have r := ihD defs st (by simpa [fmfGo] using h)
            exact ⟨r.1, by simp [noCallsNode, r.2]⟩
        | forStmt i c stp b =>
            simp only [fmfGo] at h
            obtain ⟨s1, h1, h'⟩ := except_bind_ok _ _ _ h
            obtain ⟨s2, h2, h''⟩ := except_bind_ok _ _ _ h'
            obtain ⟨s3, h3, h4⟩ := except_bind_ok _ _ _ h''
            obtain ⟨hs3, hb⟩ := ihN b s3 h4
            subst hs3
            obtain ⟨hs2, hstp⟩ := ihO stp s2 h3
            subst hs2
            obtain ⟨hs1, hc⟩ := ihO c s1 h2
            subst hs1
            obtain ⟨hst, hi⟩ := ihO i st h1
            exact ⟨hst, by simp [noCallsNode, hi, hc, hstp, hb]⟩
        | withStmt e b =>
            simp only [fmfGo] at h
            obtain ⟨s1, h1, h2⟩ := except_bind_ok _ _ _ h
            obtain ⟨hs1, hb⟩ := ihN b s1 h2
            subst hs1
            obtain ⟨hst, he⟩ := ihN e st h1
            exact ⟨hst, by simp [noCallsNode, he, hb]⟩
        | switchStmt e b =>
            simp only [fmfGo] at h
            obtain ⟨s1, h1, h2⟩ := except_bind_ok _ _ _ h
            obtain ⟨hs1, hb⟩ := ihL b s1 h2
            subst hs1
            obtain ⟨hst, he⟩ := ihN e st h1
            exact ⟨hst, by simp [noCallsNode, he, hb]⟩
        | func nm as b =>
            have r := ihL b st (by simpa [fmfGo] using h)
            exact ⟨r.1, by simp [noCallsNode, r.2]⟩
        | binary op l r =>
            simp only [fmfGo] at h
            obtain ⟨s1, h1, h2⟩ := except_bind_ok _ _ _ h
            obtain ⟨hs1, hr⟩ := ihN r s1 h2
            subst hs1
            obtain ⟨hst, hl⟩ := ihN l st h1
            exact ⟨hst, by simp [noCallsNode, hl, hr]⟩
        | assign op l r =>
            simp only [fmfGo] at h
            obtain ⟨s1, h1, h2⟩ := except_bind_ok _ _ _ h
            obtain ⟨hs1, hr⟩ := ihN r s1 h2
            subst hs1
            obtain ⟨hst, hl⟩ := ihN l st h1
            exact ⟨hst, by simp [noCallsNode, hl, hr]⟩
        | conditional c x y =>
            simp only [fmfGo] at h
            obtain ⟨s1, h1, h'⟩ := except_bind_ok _ _ _ h
            obtain ⟨s2, h2, h3⟩ := except_bind_ok _ _ _ h'
            obtain ⟨hs2, hy⟩ := ihN y s2 h3
            subst hs2
            obtain ⟨hs1, hx⟩ := ihN x s1 h2
            subst hs1
            obtain ⟨hst, hc⟩ := ihN c st h1
            exact ⟨hst, by simp [noCallsNode, hc, hx, hy]⟩
        | seqExpr a d =>
            simp only [fmfGo] at h
            obtain ⟨s1, h1, h2⟩ := except_bind_ok _ _ _ h
            obtain ⟨hs1, hd⟩ := ihN d s1 h2
            subst hs1
            obtain ⟨hst, ha⟩ := ihN a st h1
            exact ⟨hst, by simp [noCallsNode, ha, hd]⟩
        | unary op e =>
            have r := ihN e st (by simpa [fmfGo] using h)
            exact ⟨r.1, by simp [noCallsNode, r.2]⟩
        | dot e p =>
            have r := ihN e st (by simpa [fmfGo] using h)
            exact ⟨r.1, by simp [noCallsNode, r.2]⟩
        | symbolRef nm mg => simp [fmfGo] at h; exact ⟨h, rfl⟩
        | stringLit v => simp [fmfGo] at h; exact ⟨h, rfl⟩
        | numberLit v => simp [fmfGo] at h; exact ⟨h, rfl⟩
        | nanLit => simp [fmfGo] at h; exact ⟨h, rfl⟩
        | infinityLit => simp [fmfGo] at h; exact ⟨h, rfl⟩
        | trueLit => simp [fmfGo] at h; exact ⟨h, rfl⟩
        | falseLit => simp [fmfGo] at h; exact ⟨h, rfl⟩
      · intro l st h
        cases l with
        | nil => simp [fmfList] at h; exact ⟨h, rfl⟩
        | cons x xs =>
            simp only [fmfList] at h
            obtain ⟨s1, h1, h2⟩ := except_bind_ok _ _ _ h
            obtain ⟨hs1, hxs⟩ := ihL xs s1 h2
            subst hs1
            obtain ⟨hst, hx⟩ := ihN x st h1
            exact ⟨hst, by simp [noCallsList, hx, hxs]⟩
      · intro x st h
        cases x with
        | none => simp [fmfOpt] at h; exact ⟨h, rfl⟩
        | some v =>
            have r := ihN v st (by simpa [fmfOpt] using h)
            exact ⟨r.1, by simp [noCallsOpt, r.2]⟩
      · intro d st h
        cases d with
        | nil => simp [fmfDefs] at h; exact ⟨h, rfl⟩
        | cons p rest =>
            obtain ⟨nm, v⟩ := p
            simp only [fmfDefs] at h
            obtain ⟨s1, h1, h2⟩ := except_bind_ok _ _ _ h
            obtain ⟨hs1, hrest⟩ := ihD rest s1 h2
            subst hs1
            obtain ⟨hst, hv⟩ := ihO v st h1
            exact ⟨hst, by simp [noCallsDefs, hv, hrest]⟩



/-- Completeness of the undefined result: on a call-free tree the walk,
given fuel beyond the tree's node count, returns its starting state
unchanged. -/
theorem fmfGo_no_calls (fuel : Nat) :
    (∀ (t : Node) (st : Option Node), nsize t < fuel → noCallsNode t = true →
        fmfGo fuel t st = .ok st)
  ∧ (∀ (l : List Node) (st : Option Node), nsizeList l < fuel → noCallsList l = true →
        fmfList fuel l st = .ok st)
  ∧ (∀ (x : Option Node) (st : Option Node), nsizeOpt x < fuel → noCallsOpt x = true →
        fmfOpt fuel x st = .ok st)
  ∧ (∀ (d : List (String × Option Node)) (st : Option Node), nsizeDefs d < fuel →
        noCallsDefs d = true → fmfDefs fuel d st = .ok st) := by
  induction fuel with
  | zero => refine ⟨?_, ?_, ?_, ?_⟩ <;> intro a st hs hn <;> omega
  | succ f ih =>
      obtain ⟨ihN, ihL, ihO, ihD⟩ := ih
      refine ⟨?_, ?_, ?_, ?_⟩
      · intro t st hs hn
        cases t with
        | call e args => simp [noCallsNode] at hn
        | toplevel b =>
            simp only [nsize] at hs
            simp only [noCallsNode] at hn
            simpa [fmfGo] using ihL b st (by omega) hn
        | blockStatement b =>
            simp only [nsize] at hs
            simp only [noCallsNode] at hn
            simpa [fmfGo] using ihL b st (by omega) hn
        | simpleStatement e =>
            simp only [nsize] at hs
            simp only [noCallsNode] at hn
            simpa [fmfGo] using ihN e st (by omega) hn
        | ifStmt c b a =>
            simp only [nsize] at hs
            simp only [noCallsNode, Bool.and_eq_true] at hn
            obtain ⟨⟨hc, hb⟩, ha⟩ := hn
            simp [fmfGo, Bind.bind, Except.bind, ihN c st (by omega) hc,
                  ihN b st (by omega) hb, ihO a st (by omega) ha]
        | returnStmt v =>
            simp only [nsize] at hs
            simp only [noCallsNode] at hn
            simpa [fmfGo] using ihO v st (by omega) hn
        | varStmt defs =>
            simp only [nsize] at hs
            simp only [noCallsNode] at hn
            simpa [fmfGo] using ihD defs st (by omega) hn
        | forStmt i c stp b =>
            simp only [nsize] at hs
            simp only [noCallsNode, Bool.and_eq_true] at hn
            obtain ⟨⟨⟨hi, hc⟩, hstp⟩, hb⟩ := hn
            simp [fmfGo, Bind.bind, Except.bind, ihO i st (by omega) hi,
                  ihO c st (by omega) hc, ihO stp st (by omega) hstp,
                  ihN b st (by omega) hb]
        | withStmt e b =>
            simp only [nsize] at hs
            simp only [noCallsNode, Bool.and_eq_true] at hn
            obtain ⟨he, hb⟩ := hn
            simp [fmfGo, Bind.bind, Except.bind, ihN e st (by omega) he,
                  ihN b st (by omega) hb]
        | switchStmt e b =>
            simp only [nsize] at hs
            simp only [noCallsNode, Bool.and_eq_true] at hn
            obtain ⟨he, hb⟩ := hn
            simp [fmfGo, Bind.bind, Except.bind, ihN e st (by omega) he,
                  ihL b st (by omega) hb]
        | func nm as b =>
            simp only [nsize] at hs
            simp only [noCallsNode] at hn
            simpa [fmfGo] using ihL b st (by omega) hn
        | binary op l r =>
            simp only [nsize] at hs
            simp only [noCallsNode, Bool.and_eq_true] at hn
            obtain ⟨hl, hr⟩ := hn
            simp [fmfGo, Bind.bind, Except.bind, ihN l st (by omega) hl,
                  ihN r st (by omega) hr]
        | assign op l r =>
            simp only [nsize] at hs
            simp only [noCallsNode, Bool.and_eq_true] at hn
            obtain ⟨hl, hr⟩ := hn
            simp [fmfGo, Bind.bind, Except.bind, ihN l st (by omega) hl,
                  ihN r st (by omega) hr]
        | conditional c x y =>
            simp only [nsize] at hs
            simp only [noCallsNode, Bool.and_eq_true] at hn
            obtain ⟨⟨hc, hx⟩, hy⟩ := hn
            simp [fmfGo, Bind.bind, Except.bind, ihN c st (by omega) hc,
                  ihN x st (by omega) hx, ihN y st (by omega) hy]
        | seqExpr a d =>
            simp only [nsize] at hs
            simp only [noCallsNode, Bool.and_eq_true] at hn
            obtain ⟨ha, hd⟩ := hn
            simp [fmfGo, Bind.bind, Except.bind, ihN a st (by omega) ha,
                  ihN d st (by omega) hd]
        | unary op e =>
            simp only [nsize] at hs
            simp only [noCallsNode] at hn
            simpa [fmfGo] using ihN e st (by omega) hn
        | dot e p =>
            simp only [nsize] at hs
            simp only [noCallsNode] at hn
            simpa [fmfGo] using ihN e st (by omega) hn
        | symbolRef nm mg => simp [fmfGo]
        | stringLit v => simp [fmfGo]
        | numberLit v => simp [fmfGo]
        | nanLit => simp [fmfGo]
        | infinityLit => simp [fmfGo]
        | trueLit => simp [fmfGo]
        | falseLit => simp [fmfGo]
      · intro l st hs hn
        cases l with
        | nil => simp [fmfList]
        | cons x xs =>
            simp only [nsizeList] at hs
            simp only [noCallsList, Bool.and_eq_true] at hn
            obtain ⟨hx, hxs⟩ := hn
            simp [fmfList, Bind.bind, Except.bind, ihN x st (by omega) hx,
                  ihL xs st (by omega) hxs]
      · intro x st hs hn
        cases x with
        | none => simp [fmfOpt]
        | some v =>
            simp only [nsizeOpt] at hs
            simp only [noCallsOpt] at hn
            simpa [fmfOpt] using ihN v st (by omega) hn
      · intro d st hs hn
        cases d with
        | nil => simp [fmfDefs]
        | cons p rest =>
            obtain ⟨nm, v⟩ := p
            simp only [nsizeDefs] at hs
            simp only [noCallsDefs, Bool.and_eq_true] at hn
            obtain ⟨hv, hrest⟩ := hn
            simp [fmfDefs, Bind.bind, Except.bind, ihO v st (by omega) hv,
                  ihD rest st (by omega) hrest]

/-! Claim theorems. -/

/-- C9: for standalone expression statements the Normalizer rewrites a
logical-AND body into an if with the left operand as condition and the
right operand as body and no else branch, a logical-OR body the same way
with the condition negated, and a ternary body into an if/else with each
branch as a statement — for arbitrary operand names a, b, c. -/
theorem transformBefore_conditionals_rules (a b c : String) :
    decompress 99 (toplevel [simpleStatement
        (binary "&&" (symbolRef a none) (call (symbolRef b none) []))])
      = some (toplevel [ifStmt (symbolRef a none)
          (simpleStatement (call (symbolRef b none) [])) none])
  ∧ decompress 99 (toplevel [simpleStatement
        (binary "||" (symbolRef a none) (call (symbolRef b none) []))])
      = some (toplevel [ifStmt (unary "!" (symbolRef a none))
          (simpleStatement (call (symbolRef b none) [])) none])
  ∧ decompress 99 (toplevel [simpleStatement
        (conditional (symbolRef a none) (call (symbolRef b none) [])
          (call (symbolRef c none) []))])
      = some (toplevel [ifStmt (symbolRef a none)
          (simpleStatement (call (symbolRef b none) []))
          (some (simpleStatement (call (symbolRef c none) [])))]) :=
  ⟨rfl, rfl, rfl⟩

/-- C10: the sequence-splitting also fires on a standalone assignment
statement whose right-hand side is a comma-expression: the left operand
becomes a preceding plain-expression statement and the assignment keeps the
right operand, for arbitrary names x, a, b (x = (a(), b); becomes
a(); x = b;). -/
theorem removeSequences_assign_sequence_split (x a b : String) :
    decompress 99 (toplevel [simpleStatement (assign "=" (symbolRef x none)
        (seqExpr (call (symbolRef a none) []) (symbolRef b none)))])
      = some (toplevel [simpleStatement (call (symbolRef a none) []),
          simpleStatement (assign "=" (symbolRef x none) (symbolRef b none))]) :=
  rfl

/-- Input of the C8 idempotence failure: the statement (a, b) && c(); . -/
def c8Input : Node :=
  toplevel [simpleStatement
    (binary "&&" (seqExpr (symbolRef "a" none) (symbolRef "b" none))
      (call (symbolRef "c" none) []))]

/-- Result of one Normalizer run on `c8Input`: if ((a, b)) { c(); } — the
comma-expression hoisted into the if-condition slot stays unsplit. -/
def c8Once : Node :=
  toplevel [ifStmt (seqExpr (symbolRef "a" none) (symbolRef "b" none))
    (simpleStatement (call (symbolRef "c" none) [])) none]

/-- Result of a second Normalizer run: a; if (b) { c(); } . -/
def c8Twice : Node :=
  toplevel [simpleStatement (symbolRef "a" none),
    ifStmt (symbolRef "b" none) (simpleStatement (call (symbolRef "c" none) [])) none]

/-- C8: the Normalizer is not idempotent — on the already-normalized tree
`c8Once` (the output of one run on `c8Input`) a second run splits the
comma-expression that the conditional rewrite left in the if-condition
slot, so the printed outputs of one and two runs differ. -/
theorem decompress_not_idempotent :
    decompress 99 c8Input = some c8Once
  ∧ decompress 99 c8Once = some c8Twice
  ∧ printNode 99 c8Once ≠ printNode 99 c8Twice :=
  ⟨rfl, rfl, by decide⟩

/-- Program with one call nested inside a top-level function declaration:
function f(){ g(); } . -/
def c5Nested : Node :=
  toplevel [func (some "f") [] [simpleStatement (call (symbolRef "g" none) [])]]

/-- Program with two sibling top-level calls: e(); f(); . -/
def c5TwoCalls : Node :=
  toplevel [simpleStatement (call (symbolRef "e" none) []),
            simpleStatement (call (symbolRef "f" none) [])]

/-- Program with a call nested inside the argument of another call:
e(g()); . -/
def c5NestedArg : Node :=
  toplevel [simpleStatement (call (symbolRef "e" none) [call (symbolRef "g" none) []])]

/-- C5 counterexample: on function f(){ g(); } — a program whose top-level
statement list contains no call — the Kernel Matcher returns the call
nested inside the function body instead of the undefined result the claim
requires for a tree with no top-level-statement-list call. -/
theorem findMainFunction_nested_call_cex :
    findMainFunction 99 c5Nested = .ok (some (call (symbolRef "g" none) []))
  ∧ findMainFunction 99 c5Nested ≠ .ok none :=
  ⟨rfl, fun h => Option.noConfusion (Except.ok.inj h)⟩

/-- C5 amended: the matcher returns undefined exactly when no call node
exists anywhere in the tree — calls inside nested function bodies do count
as matches; it errors as soon as a second call is matched, and it does not
descend into a matched call, so a call nested inside the matched call is
never reported as a sibling match. -/
theorem findMainFunction_match_behaviour :
    (∀ (fuel : Nat) (t : Node), findMainFunction fuel t = .ok none → noCallsNode t = true)
  ∧ (∀ (fuel : Nat) (t : Node), nsize t < fuel → noCallsNode t = true →
        findMainFunction fuel t = .ok none)
  ∧ findMainFunction 99 c5TwoCalls = .error "More than one top-level function found."
  ∧ findMainFunction 99 c5NestedArg
      = .ok (some (call (symbolRef "e" none) [call (symbolRef "g" none) []]))
  ∧ findMainFunction 99 c5Nested = .ok (some (call (symbolRef "g" none) [])) := by
  refine ⟨?_, ?_, rfl, rfl, rfl⟩
  · intro fuel t h
    exact ((fmfGo_ok_none fuel).1 t none h).2
  · intro fuel t hs hn
    exact (fmfGo_no_calls fuel).1 t none hs hn

/-- C5 witness: the characterization instantiated on the call-free program
var foo; . -/
theorem findMainFunction_match_behaviour_witness :
    (findMainFunction 99 (toplevel [varStmt [("foo", none)]]) = .ok none
      ∧ noCallsNode (toplevel [varStmt [("foo", none)]]) = true)
  ∧ (nsize (toplevel [varStmt [("foo", none)]]) < 99
      ∧ noCallsNode (toplevel [varStmt [("foo", none)]]) = true
      ∧ findMainFunction 99 (toplevel [varStmt [("foo", none)]]) = .ok none) :=
  ⟨⟨rfl, findMainFunction_match_behaviour.1 99 (toplevel [varStmt [("foo", none)]]) rfl⟩,
   by decide, rfl,
   findMainFunction_match_behaviour.2.1 99 (toplevel [varStmt [("foo", none)]])
     (by decide) rfl⟩

/-- Module map of the C7 counterexample: the entry module 0 names modules
1 (a) and 2 (b); both 1 and 2 then require module 3 via relative sibling
specifiers of different lengths (./c versus ./cc). -/
def c7e0 : ModEntry := ⟨"0", dummyFn, [("./a", "1"), ("./b", "2")]⟩

/-- Module 1 of the C7 counterexample. -/
def c7e1 : ModEntry := ⟨"1", dummyFn, [("./c", "3")]⟩

/-- Module 2 of the C7 counterexample. -/
def c7e2 : ModEntry := ⟨"2", dummyFn, [("./cc", "3")]⟩

/-- Module 3 of the C7 counterexample. -/
def c7e3 : ModEntry := ⟨"3", dummyFn, []⟩

/-- The C7 module map in its original key order. -/
def c7MapA : List ModEntry := [c7e0, c7e1, c7e2, c7e3]

/-- The C7 module map with the entries for modules 1 and 2 swapped. -/
def c7MapB : List ModEntry := [c7e0, c7e2, c7e1, c7e3]

/-- C7 counterexample: on a bundle whose modules require only relative
siblings, presenting the same module-map entries in a different order
changes the resolved name of module 3 (c versus cc), so resolution is not
independent of key iteration order. -/
theorem extractModuleNames_order_dependent_cex :
    (extractModuleNames 20 c7MapA ["0"]).map (fun r => alGet r.1 "3") = some (some "c")
  ∧ (extractModuleNames 20 c7MapB ["0"]).map (fun r => alGet r.1 "3") = some (some "cc")
  ∧ (some "c" : Option String) ≠ some "cc" :=
  ⟨rfl, rfl, by decide⟩

/-- Leaf module 1 of the conflict-free three-module map. -/
def c7f1 : ModEntry := ⟨"1", dummyFn, []⟩

/-- Leaf module 2 of the conflict-free three-module map. -/
def c7f2 : ModEntry := ⟨"2", dummyFn, []⟩

/-- Name table resolved for the conflict-free three-module map. -/
def c7FreeTable : Names := [("0", "browser"), ("1", "a"), ("2", "b")]

/-- C7 amended: when the relative-sibling require evidence is conflict-free
(each target id receives a single candidate name), resolution is
independent of key iteration order: all six presentations of the
three-module map (entry 0 requiring ./a and ./b) resolve to the identical
name table with no warnings — including the orders in which the leaf
entries are visited before the entry module and must be deferred — and
likewise both key orders of the two-module fib bundle. -/
theorem extractModuleNames_conflict_free_order_independent :
    extractModuleNames 20 [c7e0, c7f1, c7f2] ["0"] = some (c7FreeTable, [])
  ∧ extractModuleNames 20 [c7e0, c7f2, c7f1] ["0"] = some (c7FreeTable, [])
  ∧ extractModuleNames 20 [c7f1, c7e0, c7f2] ["0"] = some (c7FreeTable, [])
  ∧ extractModuleNames 20 [c7f1, c7f2, c7e0] ["0"] = some (c7FreeTable, [])
  ∧ extractModuleNames 20 [c7f2, c7e0, c7f1] ["0"] = some (c7FreeTable, [])
  ∧ extractModuleNames 20 [c7f2, c7f1, c7e0] ["0"] = some (c7FreeTable, [])
  ∧ extractModuleNames 20 fibMo ["1"] = some (fibNames, [])
  ∧ extractModuleNames 20 fibMoShuffled ["1"] = some (fibNames, []) :=
  ⟨rfl, rfl, rfl, rfl, rfl, rfl, rfl, rfl⟩

/-- Module map of the C1 counterexample: entry module 0 names module 1 as
xyz and module 2 as m; module 2 then requires module 1 via ./ab, a
candidate name strictly shorter than the existing name xyz. -/
def c1Mo : List ModEntry :=
  [⟨"0", dummyFn, [("./xyz", "1"), ("./m", "2")]⟩,
   ⟨"1", dummyFn, []⟩,
   ⟨"2", dummyFn, [("./ab", "1")]⟩]

/-- Name table the resolver computes on `c1Mo`. -/
def c1Table : Names := [("0", "browser"), ("1", "xyz"), ("2", "m/index")]

/-- C1 counterexample: in the conflict where the new candidate ab is
strictly shorter than the assigned name xyz of target id 1, the run emits
no warning at all (second component empty), target id 1 keeps its longer
name xyz (it is neither replaced by the shorter candidate nor renamed with
/index), and it is the requiring module 2 whose own entry is renamed to
m/index. -/
theorem extractModuleNames_shorter_candidate_cex :
    extractModuleNames 9 c1Mo ["0"] = some (c1Table, [])
  ∧ alGet c1Table "1" = some "xyz"
  ∧ alGet c1Table "2" = some "m/index" :=
  ⟨rfl, rfl, rfl⟩

/-- Module-map entry of the C2 failing input, unreachable from the entry
id 0. -/
def c2Entry : ModEntry := ⟨"1", dummyFn, []⟩

/-- C2: the resolver's worklist loop never terminates on a module map with
an entry unreachable from every entry-point id — for every fuel bound the
loop is still re-queuing the unnamed entry when the fuel runs out. -/
theorem extractModuleNames_unreachable_diverges :
    ∀ fuel : Nat, extractModuleNames fuel [c2Entry] ["0"] = none := by
  intro fuel
  induction fuel with
  | zero => rfl
  | succ f ih => exact ih

/-- C3: in the assembled fib bundle the require argument ./fib of the entry
module is left unchanged instead of being rewritten to ./fib.js: the
updateRequires lookup `mapping[name]` reads a string property off the array
of [specifier, resolvedName] pairs that extractModules passes, which misses
for every non-numeric specifier basename. -/
theorem updateRequires_mapping_lookup_misses :
    extractModuleNames 9 fibMo ["1"] = some (fibNames, [])
  ∧ extractModules 99 fibMo fibNames = .ok fibMods
  ∧ alGet fibMods "browser"
      = some [simpleStatement (call (symbolRef "require" none) [stringLit "./fib"])]
  ∧ ("./fib" : String) ≠ "./fib.js" :=
  ⟨rfl, rfl, rfl, by decide⟩

/-- C6: round-trip on the modelled fib bundle — the Assembler extracts the
fib module's body intact, normalizing it yields the if/else form with two
return statements, and normalizing the independently parsed standalone fib
source yields the very same tree, so the printed outputs coincide. -/
theorem extractModules_fib_roundtrip :
    extractModules 99 fibMo fibNames = .ok fibMods
  ∧ alGet fibMods "fib" = some [fibDefun]
  ∧ decompress 99 (toplevel [fibDefun]) = some fibNormalized
  ∧ decompress 99 fibStandalone = some fibNormalized
  ∧ printNode 99 fibNormalized
      = "function fib(n) \x7b if ((n < 2)) \x7b return n; \x7d else \x7b return (fib((n - 1)) + fib((n - 2))); \x7d \x7d" :=
  ⟨rfl, rfl, rfl, rfl, rfl⟩

/-- Fold invariant for the name-table seeding. -/
theorem alGet_seedNames_aux (l : List String) (ns : Names) (id : String)
    (h : id ∈ l ∨ alGet ns id = some "browser") :
    alGet (l.foldl (fun ns v => alSet ns v "browser") ns) id = some "browser" := by
  induction l generalizing ns with
  | nil =>
      rcases h with h | h
      · exact absurd h (List.not_mem_nil id)
      · simpa using h
  | cons hd tl ih =>
      simp only [List.foldl_cons]
      apply ih
      rcases h with h | h
      · rcases List.mem_cons.mp h with h | h
        · right; subst h; rw [alGet_alSet]; simp
        · left; exact h
      · right
        rw [alGet_alSet]
        by_cases hh : hd = id
        · simp [hh]
        · simp [hh, h]

/-- An association-list update preserves the presence of every key. -/
theorem alGet_alSet_isSome {α : Type} (m : List (String × α)) (k : String) (v : α)
    (key : String) (h : ∃ b, alGet m key = some b) :
    ∃ b, alGet (alSet m k v) key = some b := by
  rw [alGet_alSet]
  by_cases hk : k = key
  · exact ⟨v, by simp [hk]⟩
  · simpa [hk] using h

/-- A successful assembler step only updates the entry of the processed
module's name. -/
theorem assembleStep_ok_shape (fuel : Nat) (mods : List (String × List Node)) (p : ModProp)
    (m1 : List (String × List Node)) (h : assembleStep fuel mods p = .ok m1) :
    ∃ nv, m1 = alSet mods p.moduleName nv := by
  unfold assembleStep at h
  cases hb : bodyOf p.fn with
  | error e => rw [hb] at h; simp [Bind.bind, Except.bind] at h
  | ok ab =>
      obtain ⟨args, body⟩ := ab
      rw [hb] at h
      simp only [Bind.bind, Except.bind] at h
      cases hu : updateRequiresList p.mapping fuel body with
      | none => rw [hu] at h; simp at h
      | some b' =>
          rw [hu] at h
          simp only [Except.bind] at h
          exact ⟨_, (Except.ok.inj h).symm⟩

/-- The assembler fold preserves the presence of the browser entry tree. -/
theorem assembleLoop_preserves (fuel : Nat) (props : List ModProp) :
    ∀ mods mods' : List (String × List Node),
      (∃ b, alGet mods "browser" = some b) →
      assembleLoop fuel props mods = .ok mods' →
      ∃ b, alGet mods' "browser" = some b := by
  induction props with
  | nil =>
      intro mods mods' h hm
      simp only [assembleLoop] at hm
      cases Except.ok.inj hm
      exact h
  | cons p rest ih =>
      intro mods mods' h hm
      simp only [assembleLoop] at hm
      cases hstep : assembleStep fuel mods p with
      | error e => rw [hstep] at hm; simp [Bind.bind, Except.bind] at hm
      | ok m1 =>
          rw [hstep] at hm
          simp only [Bind.bind, Except.bind] at hm
          obtain ⟨nv, rfl⟩ := assembleStep_ok_shape fuel mods p m1 hstep
          exact ih _ mods' (alGet_alSet_isSome _ _ _ _ h) hm

/-- C4: every id of the entry-id array is seeded with the sentinel entry
name browser, and every successful Assembler run's output contains a
(possibly empty) tree under that entry name — so the entry output file
always exists. -/
theorem extractModules_entry_tree_exists :
    (∀ (main : List String) (id : String), id ∈ main →
        alGet (seedNames main) id = some "browser")
  ∧ ∀ (fuel : Nat) (mo : List ModEntry) (names : Names) (mods : List (String × List Node)),
      extractModules fuel mo names = .ok mods →
      ∃ body, alGet mods "browser" = some body := by
  constructor
  · intro main id h
    exact alGet_seedNames_aux main [] id (Or.inl h)
  · intro fuel mo names mods h
    unfold extractModules at h
    cases h1 : exceptFilter (isNotBuiltinModule names) mo with
    | error e => rw [h1] at h; simp [Bind.bind, Except.bind] at h
    | ok f1 =>
        rw [h1] at h
        simp only [Bind.bind, Except.bind] at h
        cases h2 : exceptFilter (isNotPublishedDependency names) f1 with
        | error e => rw [h2] at h; simp [Except.bind] at h
        | ok f2 =>
            rw [h2] at h
            simp only [Except.bind] at h
            exact assembleLoop_preserves fuel _ [("browser", [])] mods ⟨[], rfl⟩ h

/-- C4 witness: the seeding fact at entry id 1 and the assembler fact on
the concrete fib bundle. -/
theorem extractModules_entry_tree_exists_witness :
    ("1" ∈ ["1"] ∧ alGet (seedNames ["1"]) "1" = some "browser")
  ∧ (extractModules 99 fibMo fibNames = .ok fibMods
      ∧ ∃ body, alGet fibMods "browser" = some body) :=
  ⟨⟨by decide, extractModules_entry_tree_exists.1 ["1"] "1" (by decide)⟩,
   rfl, extractModules_entry_tree_exists.2 99 fibMo fibNames fibMods rfl⟩

/-- C1 amended: in a naming conflict (target id already named, candidate
differs case-insensitively) the code keeps the target's existing name in
every case; when the existing name is shorter or equal it emits the
three-line warning and changes nothing else, and when the candidate is
strictly shorter it emits no warning, leaves the target id's entry
untouched, and instead renames the requiring module's own entry to its
current name with /index appended; the conflict is never fatal. -/
theorem processPair_conflict_resolution
    (names : Names) (ws : List String) (mid mn pk tid existing : String)
    (hget : alGet names tid = some existing) (hne : existing ≠ "")
    (hdiff : strToLower existing ≠ strToLower (candidateName mn pk)) :
    (existing.length ≤ (candidateName mn pk).length →
      processPair names ws mid mn pk tid =
        (names, mn,
          ws ++ ["More than one name found for module " ++ tid ++ ":",
                 "    " ++ existing,
                 "    " ++ candidateName mn pk]))
  ∧ ((candidateName mn pk).length < existing.length →
      processPair names ws mid mn pk tid
        = (alSet names mid (mn ++ "/index"), mn ++ "/index", ws))
  ∧ ((candidateName mn pk).length < existing.length → tid ≠ mid →
      alGet (alSet names mid (mn ++ "/index")) tid = some existing) := by
  refine ⟨?_, ?_, ?_⟩
  · intro hle
    simp only [processPair, hget, if_neg hne, if_pos hdiff, if_pos hle]
  · intro hlt
    simp only [processPair, hget, if_neg hne, if_pos hdiff, if_neg (not_le.mpr hlt)]
  · intro _ hne2
    rw [alGet_alSet, if_neg (fun h => hne2 h.symm)]
    exact hget

/-- C1 witness: the conflict step at the counterexample's concrete values
(existing name xyz for target 1, shorter candidate ab contributed by
module 2 named m). -/
theorem processPair_conflict_resolution_witness :
    (alGet [("1", "xyz")] "1" = some "xyz"
      ∧ ("xyz" : String) ≠ ""
      ∧ strToLower "xyz" ≠ strToLower (candidateName "m" "./ab")
      ∧ (candidateName "m" "./ab").length < ("xyz" : String).length
      ∧ ("1" : String) ≠ "2")
  ∧ processPair [("1", "xyz")] [] "2" "m" "./ab" "1"
      = (alSet [("1", "xyz")] "2" ("m" ++ "/index"), "m" ++ "/index", [])
  ∧ alGet (alSet [("1", "xyz")] "2" ("m" ++ "/index")) "1" = some "xyz" :=
  ⟨⟨rfl, by decide, by decide, by decide, by decide⟩,
   (processPair_conflict_resolution [("1", "xyz")] [] "2" "m" "./ab" "1" "xyz"
      rfl (by decide) (by decide)).2.1 (by decide),
   (processPair_conflict_resolution [("1", "xyz")] [] "2" "m" "./ab" "1" "xyz"
      rfl (by decide) (by decide)).2.2 (by decide) (by decide)⟩

end Unbrowserify
